import Mathlib

/-!
Shallow embedding of the "Second Brain" application core (src/app.js):
the persisted JSON record store (loadData, import), the keyword
classifier (classifyInboxItem), the inbox→task / inbox→idea conversion
pipeline (convertInboxToTask, convertInboxToIdea), task operations
(addQuickTask, showAddTaskModal, toggleTask) and the due-status
derivation (getDueStatus).

Side-effecting inputs of the JavaScript (generateId(), new Date(),
prompt(), the result of JSON.parse on external data) are passed as
explicit parameters; DOM rendering, toasts and localStorage writes are
outside the modelled state.
-/

namespace SecondBrain

/- ===================== JSON-level model (persistence) ===================== -/

/-- JavaScript/JSON values, used to model the persisted blob and the
spread-merge in `loadData` and the import handler.  Numbers are modelled
as `Int` (no claim depends on non-integer numerics).  Object field lists
are taken with unique keys, as produced by `JSON.parse` and object
spreads. -/
inductive JVal where
  | null : JVal
  | bool : Bool → JVal
  | num : Int → JVal
  | str : String → JVal
  | arr : List JVal → JVal
  | obj : List (String × JVal) → JVal

/-- Property lookup on a JS object (field lists have unique keys). -/
def objLookup (k : String) : List (String × JVal) → Option JVal
  | [] => none
  | (k', v) :: rest => if k' = k then some v else objLookup k rest

/-- Own enumerable entries contributed by `...v` in an object literal:
an object spreads its fields, a string spreads its characters under
index keys, an array spreads its elements under index keys, and
`null`/booleans/numbers spread nothing. -/
def jsSpreadFields : JVal → List (String × JVal)
  | .obj fields => fields
  | .str s => (s.toList.enum.map fun p => (toString p.1, JVal.str (String.mk [p.2])))
  | .arr xs => (xs.enum.map fun p => (toString p.1, p.2))
  | _ => []

/-- The JS object literal `{...a, ...b}`: keys of `a` (overridden by `b`
where both have them) followed by the keys only `b` has. -/
def spreadMerge (a b : List (String × JVal)) : List (String × JVal) :=
  (a.map fun p => match objLookup p.1 b with
    | some v => (p.1, v)
    | none => p) ++
  b.filter fun p => (objLookup p.1 a).isNone

/-- The `defaultData` constant from src/app.js: the structurally complete default
store. -/
def defaultData : List (String × JVal) :=
  [("inbox", .arr []),
   ("projects", .arr []),
   ("tasks", .arr []),
   ("ideas", .arr []),
   ("contacts", .arr []),
   ("settings", .obj [("darkMode", .bool true), ("apiKey", .str "")])]

/-- The `loadData()` function from src/app.js.  The argument is the outcome of
`localStorage.getItem(DB_KEY)` followed by `JSON.parse`: `none` when no
(truthy) blob is stored, `some (.error ())` when `JSON.parse` threw (the
`catch` swallows it), `some (.ok v)` when it parsed to `v`; in the last
case the code returns `{...defaultData, ...JSON.parse(stored)}`. -/
def loadData (stored : Option (Except Unit JVal)) : List (String × JVal) :=
  match stored with
  | some (.ok v) => spreadMerge defaultData (jsSpreadFields v)
  | some (.error _) => defaultData
  | none => defaultData

/-- The `importFile` change handler from src/app.js, restricted to its
store effect.  The first argument is the current in-memory store (at the
JSON level), the second the outcome of `JSON.parse` on the file text.
Returns the resulting store and whether a user-visible error toast
(`'Invalid file format'`) was shown. -/
def importData (current : List (String × JVal))
    (parsed : Except Unit JVal) : List (String × JVal) × Bool :=
  match parsed with
  | .ok v => (spreadMerge defaultData (jsSpreadFields v), false)
  | .error _ => (current, true)

/- ===================== Typed record store ===================== -/

/-- An inbox record as created by `addToInbox` in src/app.js. -/
structure InboxItem where
  id : String
  text : String
  type : String
  status : String
  createdAt : String
  aiSummary : String
deriving Repr, DecidableEq

/-- A task record.  `completedAt` distinguishes the JS states: `none` =
property absent (as at creation), `some none` = `null` (set by
`toggleTask` on un-completing), `some (some ts)` = timestamp string. -/
structure Task where
  id : String
  text : String
  completed : Bool
  priority : String
  dueDate : Option String
  project : Option String
  context : List String
  createdAt : String
  completedAt : Option (Option String)
deriving Repr, DecidableEq

/-- A project record as created by `addProject` in src/app.js. -/
structure Project where
  id : String
  name : String
  description : String
  status : String
  progress : Nat
  tasks : Nat
  createdAt : String
deriving Repr, DecidableEq

/-- An idea record as created by `addIdea` / `convertInboxToIdea`. -/
structure Idea where
  id : String
  text : String
  category : String
  potential : Nat
  status : String
  createdAt : String
deriving Repr, DecidableEq

/-- A contact record as created by `addContact` in src/app.js. -/
structure Contact where
  id : String
  name : String
  company : String
  relationship : String
  email : String
  phone : String
  lastContact : Option String
  nextFollowUp : Option String
  notes : String
  createdAt : String
deriving Repr, DecidableEq

/-- The `settings` sub-object of the store. -/
structure Settings where
  darkMode : Bool
  apiKey : String
deriving Repr, DecidableEq

/-- The in-memory `state` of src/app.js: five collections plus
settings. -/
structure Store where
  inbox : List InboxItem
  projects : List Project
  tasks : List Task
  ideas : List Idea
  contacts : List Contact
  settings : Settings
deriving Repr, DecidableEq

/- ===================== Classifier ===================== -/

/-- Tests that the needle begins the haystack: auxiliary for the substring test. -/
def beginsWith : List Char → List Char → Bool
  | _, [] => true
  | [], _ :: _ => false
  | c :: cs, d :: ds => c = d && beginsWith cs ds

/-- Substring containment on character lists: the needle begins the
haystack at some position. -/
def listContains : List Char → List Char → Bool
  | [], needle => beginsWith [] needle
  | c :: cs, needle => beginsWith (c :: cs) needle || listContains cs needle

/-- The JS `hay.includes(needle)` substring test, receiver first. -/
def includes (hay needle : String) : Bool :=
  listContains hay.toList needle.toList

/-- The JS `toLowerCase()` call: lower-case every character (character-wise
`Char.toLower`, which agrees with JS on the ASCII letters the keyword
lists consist of). -/
def jsToLower (s : String) : String :=
  ⟨s.toList.map Char.toLower⟩

/-- The task-marker test of `classifyInboxItem` (applied to the
lowercased text). -/
def taskMatch (t : String) : Bool :=
  includes t "task:" || includes t "todo:" || includes t "need to" ||
    includes t "must" || includes t "should"

/-- The idea-marker test of `classifyInboxItem`. -/
def ideaMatch (t : String) : Bool :=
  includes t "idea:" || includes t "what if" || includes t "maybe" ||
    includes t "could"

/-- The link-marker test of `classifyInboxItem`. -/
def linkMatch (t : String) : Bool :=
  includes t "http://" || includes t "https://" || includes t ".com" ||
    includes t ".org"

/-- The type assignment of `classifyInboxItem`: the if/else-if chain
over the lowercased text; when no group matches, the current type `ty`
is kept (there is no final `else`). -/
def classifyType (text ty : String) : String :=
  let t := jsToLower text
  if taskMatch t then "task"
  else if ideaMatch t then "idea"
  else if linkMatch t then "link"
  else ty

/-- The summary assignment of `classifyInboxItem`:
`if (item.text.length > 50) item.aiSummary = item.text.substring(0, 47) + '...'`,
otherwise `aiSummary` is left as it is. -/
def classifySummary (text curSummary : String) : String :=
  if text.length > 50 then text.take 47 ++ "..." else curSummary

/-- The per-item effect of `classifyInboxItem` on the found record:
mutates `type` and `aiSummary`, nothing else. -/
def classifyStep (i : InboxItem) : InboxItem :=
  { i with type := classifyType i.text i.type,
           aiSummary := classifySummary i.text i.aiSummary }

/-- In the source, `state.inbox.find(i => i.id === id)` returns a reference to the
first matching record and `classifyInboxItem` mutates it in place:
update the first record whose `id` matches, leave the rest untouched. -/
def classifyInboxList (id : String) : List InboxItem → List InboxItem
  | [] => []
  | i :: is =>
    if i.id = id then classifyStep i :: is
    else i :: classifyInboxList id is

/-- The `classifyInboxItem(id)` function from src/app.js, restricted to its store
effect (`saveData` and rendering are outside the model).  When no inbox
record has the id, the early `if (!item) return` leaves the store
untouched. -/
def classifyInboxItem (s : Store) (id : String) : Store :=
  match s.inbox.find? fun i => i.id = id with
  | none => s
  | some _ => { s with inbox := classifyInboxList id s.inbox }

/- ===================== Conversion pipeline ===================== -/

/-- The `convertInboxToTask(id)` function from src/app.js.  `newId` stands for the
`generateId()` call and `now` for `new Date().toISOString()`. -/
def convertInboxToTask (s : Store) (id newId now : String) : Store :=
  match s.inbox.find? fun i => i.id = id with
  | none => s
  | some item =>
    let task : Task :=
      { id := newId, text := item.text, completed := false,
        priority := "medium", dueDate := none, project := none,
        context := [], createdAt := now, completedAt := none }
    { s with tasks := s.tasks ++ [task],
             inbox := s.inbox.filter fun i => ¬ i.id = id }

/-- The `convertInboxToIdea(id)` function from src/app.js. -/
def convertInboxToIdea (s : Store) (id newId now : String) : Store :=
  match s.inbox.find? fun i => i.id = id with
  | none => s
  | some item =>
    let idea : Idea :=
      { id := newId, text := item.text, category := "general",
        potential := 2, status := "new", createdAt := now }
    { s with ideas := s.ideas ++ [idea],
             inbox := s.inbox.filter fun i => ¬ i.id = id }

/- ===================== Task operations ===================== -/

/-- The `addQuickTask()` function from src/app.js: trims the input field, returns on
empty text, otherwise pushes a fresh task record.  `newId` stands for
`generateId()` and `now` for `new Date().toISOString()`. -/
def addQuickTask (s : Store) (input newId now : String) : Store :=
  let text := input.trim
  if text = "" then s
  else
    { s with tasks := s.tasks ++
        [{ id := newId, text := text, completed := false,
           priority := "medium", dueDate := none, project := none,
           context := [], createdAt := now, completedAt := none }] }

/-- The `showAddTaskModal()` function from src/app.js: `prompt('Enter task:')` may be
cancelled (`none`); a non-empty trimmed answer is pushed as a fresh task
record. -/
def showAddTaskModal (s : Store) (answer : Option String)
    (newId now : String) : Store :=
  match answer with
  | none => s
  | some text =>
    if text.trim = "" then s
    else
      { s with tasks := s.tasks ++
          [{ id := newId, text := text.trim, completed := false,
             priority := "medium", dueDate := none, project := none,
             context := [], createdAt := now, completedAt := none }] }

/-- In the source, `state.tasks.find(t => t.id === id)` returns a reference to the
first matching record and `toggleTask` mutates it in place:
`task.completed = !task.completed;`
`task.completedAt = task.completed ? new Date().toISOString() : null;`
(the ternary reads the already-flipped flag). -/
def toggleTaskList (id now : String) : List Task → List Task
  | [] => []
  | t :: ts =>
    if t.id = id then
      { t with completed := !t.completed,
               completedAt := if !t.completed then some (some now)
                              else some none } :: ts
    else t :: toggleTaskList id now ts

/-- The `toggleTask(id)` function from src/app.js, restricted to its store effect. -/
def toggleTask (s : Store) (id now : String) : Store :=
  match s.tasks.find? fun t => t.id = id with
  | none => s
  | some _ => { s with tasks := toggleTaskList id now s.tasks }

/- ===================== Due-status derivation ===================== -/

/-- A JS `Date` in local time, as far as `getDueStatus` observes it:
`day` is the local calendar-day index (days since an arbitrary epoch)
and `msOfDay` the milliseconds elapsed since that day's local
midnight. -/
structure LocalDateTime where
  day : Int
  msOfDay : Nat
deriving Repr, DecidableEq

/-- The `d.setHours(0, 0, 0, 0)` call: truncate to the local midnight of the same
calendar day. -/
def atMidnight (t : LocalDateTime) : LocalDateTime :=
  { t with msOfDay := 0 }

/-- Numeric value of a `Date` (milliseconds), as used by the JS
subtraction `due - today`.  Relative to the same epoch as `day`. -/
def toMillis (t : LocalDateTime) : Int :=
  t.day * 86400000 + t.msOfDay

/-- The `getDueStatus(dueDate)` function from src/app.js.  `dueDate = none` models a
falsy due date (`null` / absent / empty string), on which the function
returns `''` at once; `today` is the current clock reading. -/
def getDueStatus (dueDate : Option LocalDateTime)
    (today : LocalDateTime) : String :=
  match dueDate with
  | none => ""
  | some due =>
    let diff := toMillis (atMidnight due) - toMillis (atMidnight today)
    if diff < 0 then "overdue"
    else if diff = 0 then "today"
    else ""

/- ===================== Invariants and sample data ===================== -/

/-- Whether `completedAt` is "set": present and non-null. -/
def completedAtSet : Option (Option String) → Bool
  | some (some _) => true
  | _ => false

/-- The Task invariant of the data model: `completedAt` is set (defined
and non-null) exactly when `completed` is true. -/
def taskInvariant (t : Task) : Prop :=
  completedAtSet t.completedAt = t.completed

instance (t : Task) : Decidable (taskInvariant t) := by
  unfold taskInvariant; infer_instance

/-- A concrete inbox record used by the witness instantiations. -/
def sampleItem : InboxItem :=
  { id := "a1", text := "need to check http://x.com", type := "thought",
    status := "new", createdAt := "2024-01-01T00:00:00.000Z",
    aiSummary := "" }

/-- A concrete inbox record whose text has 51 characters. -/
def sampleLongItem : InboxItem :=
  { id := "a2",
    text := "aaaaaaaaaaaaaaaaaaaaaaaaaaaaaaaaaaaaaaaaaaaaaaaaaaa",
    type := "thought", status := "new",
    createdAt := "2024-01-01T00:00:00.000Z", aiSummary := "" }

/-- A concrete task record used by the witness instantiations. -/
def sampleTask : Task :=
  { id := "t9", text := "write report", completed := false,
    priority := "medium", dueDate := none, project := none,
    context := [], createdAt := "2024-01-02T00:00:00.000Z",
    completedAt := none }

/-- A concrete store used by the witness instantiations. -/
def sampleStore : Store :=
  { inbox := [sampleItem], projects := [], tasks := [sampleTask],
    ideas := [], contacts := [],
    settings := { darkMode := true, apiKey := "" } }

/- ===================== Theorems ===================== -/

/-- C4: `getDueStatus` compares the due date's calendar day (time of
day stripped to midnight) with today's: a negative day difference gives
'overdue', zero gives 'today' (regardless of either time of day),
positive or an absent due date gives the empty status. -/
theorem getDueStatus_calendar_day (due today : LocalDateTime) :
    (getDueStatus none today = "") ∧
    (due.day < today.day → getDueStatus (some due) today = "overdue") ∧
    (due.day = today.day → getDueStatus (some due) today = "today") ∧
    (today.day < due.day → getDueStatus (some due) today = "") := by
  refine ⟨rfl, fun h => ?_, fun h => ?_, fun h => ?_⟩ <;>
  · simp only [getDueStatus, atMidnight, toMillis]
    split_ifs <;> first | rfl | (exfalso; omega)

/-- C4 witness: concrete instances — yesterday with a time of day is
overdue, the same day with a later time of day is 'today', tomorrow and
an absent due date give the empty status. -/
theorem getDueStatus_calendar_day_witness :
    getDueStatus (some ⟨-1, 3600000⟩) ⟨0, 43200000⟩ = "overdue" ∧
    getDueStatus (some ⟨5, 86399999⟩) ⟨5, 0⟩ = "today" ∧
    getDueStatus (some ⟨6, 0⟩) ⟨5, 1000⟩ = "" ∧
    getDueStatus none ⟨5, 0⟩ = "" :=
  ⟨(getDueStatus_calendar_day ⟨-1, 3600000⟩ ⟨0, 43200000⟩).2.1 (by decide),
   (getDueStatus_calendar_day ⟨5, 86399999⟩ ⟨5, 0⟩).2.2.1 (by decide),
   (getDueStatus_calendar_day ⟨6, 0⟩ ⟨5, 1000⟩).2.2.2 (by decide),
   (getDueStatus_calendar_day ⟨5, 0⟩ ⟨5, 0⟩).1⟩

/-- C5: classification sets the summary to the first 47 characters plus
the 3-character ellipsis marker exactly when the text is longer than 50
characters (the summary then has exactly 50 characters); otherwise the
summary is left as it is (so it stays empty for a freshly captured
item). -/
theorem classify_summary_truncation (i : InboxItem) :
    (i.text.length > 50 →
      (classifyStep i).aiSummary = i.text.take 47 ++ "..." ∧
      (classifyStep i).aiSummary.length = 50) ∧
    (i.text.length ≤ 50 → (classifyStep i).aiSummary = i.aiSummary) := by
  constructor
  · intro h
    have hs : (classifyStep i).aiSummary = i.text.take 47 ++ "..." := by
      simp [classifyStep, classifySummary, h]
    refine ⟨hs, ?_⟩
    rw [hs, String.length_append, String.take_eq]
    have hmin : (String.mk (i.text.1.take 47)).length = min 47 i.text.1.length := by
      simp
    rw [hmin]
    have hlen : i.text.1.length = i.text.length := rfl
    have hdots : ("..." : String).length = 3 := rfl
    omega
  · intro h
    have hnot : ¬ i.text.length > 50 := by omega
    simp [classifyStep, classifySummary, hnot]

/-- C5 witness: a 51-character text yields the truncated 50-character
summary; a short text leaves the (empty) summary unchanged. -/
theorem classify_summary_truncation_witness :
    (sampleLongItem.text.length > 50 ∧
      (classifyStep sampleLongItem).aiSummary =
        sampleLongItem.text.take 47 ++ "..." ∧
      (classifyStep sampleLongItem).aiSummary.length = 50) ∧
    (sampleItem.text.length ≤ 50 ∧
      (classifyStep sampleItem).aiSummary = sampleItem.aiSummary) :=
  ⟨⟨by decide, (classify_summary_truncation sampleLongItem).1 (by decide)⟩,
   ⟨by decide, (classify_summary_truncation sampleItem).2 (by decide)⟩⟩

/-- The type assignment of the classifier is idempotent: the keyword
tests only look at the text, and a non-match keeps the current type. -/
theorem classifyType_idem (text ty : String) :
    classifyType text (classifyType text ty) = classifyType text ty := by
  simp only [classifyType]
  split_ifs <;> rfl

/-- The summary assignment of the classifier is idempotent. -/
theorem classifySummary_idem (text s : String) :
    classifySummary text (classifySummary text s) = classifySummary text s := by
  simp only [classifySummary]
  split_ifs <;> rfl

/-- C9: the classification step is idempotent — reapplying it to an item
(whose text it never changes) yields the same type and the same
summary. -/
theorem classify_idempotent (i : InboxItem) :
    classifyStep (classifyStep i) = classifyStep i := by
  simp only [classifyStep, classifyType_idem, classifySummary_idem]

/-- C6: when no inbox record has the requested id, both conversions are
a complete no-op: the whole store is returned unchanged. -/
theorem convertInbox_missing_noop (s : Store) (id newId now : String)
    (h : ∀ i ∈ s.inbox, i.id ≠ id) :
    convertInboxToTask s id newId now = s ∧
    convertInboxToIdea s id newId now = s := by
  have hfind : (s.inbox.find? fun i => i.id = id) = none := by
    rw [List.find?_eq_none]
    intro i hi
    simpa using h i hi
  constructor <;> simp [convertInboxToTask, convertInboxToIdea, hfind]

/-- C6 witness: converting a missing id on a concrete store returns the
store unchanged. -/
theorem convertInbox_missing_noop_witness :
    convertInboxToTask sampleStore "zz" "n1" "t1" = sampleStore ∧
    convertInboxToIdea sampleStore "zz" "n1" "t1" = sampleStore :=
  convertInbox_missing_noop sampleStore "zz" "n1" "t1" (by decide)

/-- C7: the import handler leaves the current store untouched and shows
the error toast when `JSON.parse` fails, and on success replaces the
store by the same merge-over-defaults that `loadData` performs. -/
theorem importData_spec (current : List (String × JVal)) (v : JVal)
    (e : Unit) :
    importData current (.error e) = (current, true) ∧
    importData current (.ok v) = (loadData (some (.ok v)), false) :=
  ⟨rfl, rfl⟩

/-- C1: the classifier is a case-insensitive first-match-wins cascade
over the three keyword groups — task markers ('task:', 'todo:',
'need to', 'must', 'should'), then idea markers ('idea:', 'what if',
'maybe', 'could'), then link markers ('http://', 'https://', '.com',
'.org') — and leaves the type unchanged when no group matches; in
particular "need to check http://x.com" (matching both the task and the
link group) is classified as a task. -/
theorem classifyType_first_match (text ty : String) :
    (taskMatch (jsToLower text) = true → classifyType text ty = "task") ∧
    (taskMatch (jsToLower text) = false → ideaMatch (jsToLower text) = true →
      classifyType text ty = "idea") ∧
    (taskMatch (jsToLower text) = false → ideaMatch (jsToLower text) = false →
      linkMatch (jsToLower text) = true → classifyType text ty = "link") ∧
    (taskMatch (jsToLower text) = false → ideaMatch (jsToLower text) = false →
      linkMatch (jsToLower text) = false → classifyType text ty = ty) ∧
    classifyType "need to check http://x.com" ty = "task" := by
  refine ⟨?_, ?_, ?_, ?_, ?_⟩
  · intro h; simp [classifyType, h]
  · intro h1 h2; simp [classifyType, h1, h2]
  · intro h1 h2 h3; simp [classifyType, h1, h2, h3]
  · intro h1 h2 h3; simp [classifyType, h1, h2, h3]
  · have h : taskMatch (jsToLower "need to check http://x.com") = true := by
      decide
    simp [classifyType, h]

/-- C1 witness: one concrete text per branch — a task marker, an idea
marker with no task marker, a link marker with no task or idea marker,
no marker at all, and the overlapping task/link example. -/
theorem classifyType_first_match_witness :
    classifyType "TODO: x" "thought" = "task" ∧
    classifyType "what if x" "thought" = "idea" ∧
    classifyType "see x.org" "thought" = "link" ∧
    classifyType "hello" "thought" = "thought" ∧
    classifyType "need to check http://x.com" "thought" = "task" :=
  ⟨(classifyType_first_match "TODO: x" "thought").1 (by decide),
   (classifyType_first_match "what if x" "thought").2.1 (by decide)
     (by decide),
   (classifyType_first_match "see x.org" "thought").2.2.1 (by decide)
     (by decide) (by decide),
   (classifyType_first_match "hello" "thought").2.2.2.1 (by decide)
     (by decide) (by decide),
   (classifyType_first_match "hello" "thought").2.2.2.2⟩

/-- Key lookup in the overridden copy of `a` (the first half of
`spreadMerge a b`): present keys of `a` keep their position, with the
value overridden by `b` where `b` also has the key. -/
theorem objLookup_override (b : List (String × JVal)) (k : String)
    (a : List (String × JVal)) :
    objLookup k (a.map fun p => match objLookup p.1 b with
      | some v => (p.1, v)
      | none => p) =
    (objLookup k a).map fun v => (objLookup k b).getD v := by
  induction a with
  | nil => rfl
  | cons p a' ih =>
    obtain ⟨k', v'⟩ := p
    by_cases hk : k' = k
    · subst hk
      cases hb : objLookup k' b <;> simp [objLookup, hb]
    · cases hb : objLookup k' b <;> simp [objLookup, hk, hb, ih]

/-- Key lookup in the filtered copy of `b` (the second half of
`spreadMerge a b`): only the keys absent from `a` survive. -/
theorem objLookup_filtered (a : List (String × JVal)) (k : String)
    (b : List (String × JVal)) :
    objLookup k (b.filter fun p => (objLookup p.1 a).isNone) =
    if (objLookup k a).isNone then objLookup k b else none := by
  induction b with
  | nil => simp [objLookup]
  | cons p b' ih =>
    obtain ⟨k', v'⟩ := p
    by_cases hk : k' = k
    · subst hk
      cases ha : (objLookup k' a).isNone <;>
        simp [objLookup, List.filter_cons, ha, ih]
    · cases ha : (objLookup k' a).isNone <;>
        simp [objLookup, List.filter_cons, hk, ha, ih]

/-- Key lookup distributes over list append, first list first. -/
theorem objLookup_append (l₁ l₂ : List (String × JVal)) (k : String) :
    objLookup k (l₁ ++ l₂) =
    match objLookup k l₁ with
    | some v => some v
    | none => objLookup k l₂ := by
  induction l₁ with
  | nil => simp [objLookup]
  | cons p l ih =>
    obtain ⟨k', v'⟩ := p
    by_cases hk : k' = k <;> simp [objLookup, hk, ih]

/-- The JS spread `{...a, ...b}` seen through key lookup: keys of `b`
win, keys only in `a` fall through. -/
theorem objLookup_spreadMerge (a b : List (String × JVal)) (k : String) :
    objLookup k (spreadMerge a b) =
    match objLookup k b with
    | some v => some v
    | none => objLookup k a := by
  rw [spreadMerge, objLookup_append, objLookup_override, objLookup_filtered]
  cases objLookup k a <;> cases objLookup k b <;> simp

/-- C3: `loadData` is total and never fails its caller: an absent blob
or a parse error yields the complete default store (five empty
collections plus settings with `darkMode` and `apiKey`); a parsed object
is merged over the defaults, so keys missing from it are defaulted and
unknown extra keys are preserved. -/
theorem loadData_spec :
    (loadData none = defaultData) ∧
    (loadData (some (.error ())) = defaultData) ∧
    (objLookup "inbox" defaultData = some (.arr []) ∧
     objLookup "projects" defaultData = some (.arr []) ∧
     objLookup "tasks" defaultData = some (.arr []) ∧
     objLookup "ideas" defaultData = some (.arr []) ∧
     objLookup "contacts" defaultData = some (.arr []) ∧
     objLookup "settings" defaultData =
       some (.obj [("darkMode", .bool true), ("apiKey", .str "")])) ∧
    (∀ (fields : List (String × JVal)) (k : String),
      objLookup k fields = none →
        objLookup k (loadData (some (.ok (.obj fields)))) =
          objLookup k defaultData) ∧
    (∀ (fields : List (String × JVal)) (k : String) (v : JVal),
      objLookup k defaultData = none → objLookup k fields = some v →
        objLookup k (loadData (some (.ok (.obj fields)))) = some v) := by
  refine ⟨rfl, rfl, ⟨rfl, rfl, rfl, rfl, rfl, rfl⟩, ?_, ?_⟩
  · intro fields k hk
    have hld : loadData (some (.ok (.obj fields))) =
        spreadMerge defaultData fields := rfl
    rw [hld, objLookup_spreadMerge, hk]
  · intro fields k v _ hk
    have hld : loadData (some (.ok (.obj fields))) =
        spreadMerge defaultData fields := rfl
    rw [hld, objLookup_spreadMerge, hk]

/-- C3 witness: a stored object carrying only an unknown key gets the
`tasks` collection from the defaults while the unknown key survives the
merge; parse failure and an absent blob give the defaults. -/
theorem loadData_spec_witness :
    loadData none = defaultData ∧
    loadData (some (.error ())) = defaultData ∧
    objLookup "tasks"
      (loadData (some (.ok (.obj [("extra", .num 5)])))) =
      objLookup "tasks" defaultData ∧
    objLookup "extra"
      (loadData (some (.ok (.obj [("extra", .num 5)])))) =
      some (.num 5) :=
  ⟨loadData_spec.1, loadData_spec.2.1,
   loadData_spec.2.2.2.1 [("extra", .num 5)] "tasks" rfl,
   loadData_spec.2.2.2.2 [("extra", .num 5)] "extra" (.num 5) rfl rfl⟩

/-- Splitting a list by a Bool predicate: the elements failing it plus
the elements passing it account for the whole length. -/
theorem length_filter_not {α : Type} (p : α → Bool) (l : List α) :
    (l.filter fun a => !(p a)).length + (l.filter p).length = l.length := by
  induction l with
  | nil => rfl
  | cons x xs ih =>
    cases h : p x <;> simp [List.filter_cons, h] <;> omega

/-- C2: when an inbox record with the requested id exists (uniquely, as
ids are unique tokens), converting it to a task removes exactly that
record from the inbox (length drops by one, records with other ids
survive) and appends exactly one task carrying the source text verbatim
with completed=false, priority='medium', no due date, no project, empty
context, the fresh createdAt and a fresh id differing from the source
id; converting to an idea removes the same record and appends one idea
with category='general', potential=2, status='new'. -/
theorem convertInbox_spec (s : Store) (id newId now : String)
    (item : InboxItem)
    (hfind : (s.inbox.find? fun i => i.id = id) = some item)
    (huniq : (s.inbox.filter fun i => i.id = id).length = 1)
    (hfresh : newId ≠ item.id) :
    ((convertInboxToTask s id newId now).inbox.length + 1 =
      s.inbox.length) ∧
    (∀ j ∈ (convertInboxToTask s id newId now).inbox, j.id ≠ id) ∧
    (∀ j ∈ s.inbox, j.id ≠ id →
      j ∈ (convertInboxToTask s id newId now).inbox) ∧
    ((convertInboxToTask s id newId now).tasks = s.tasks ++
      [{ id := newId, text := item.text, completed := false,
         priority := "medium", dueDate := none, project := none,
         context := [], createdAt := now, completedAt := none }]) ∧
    ((convertInboxToTask s id newId now).tasks.length =
      s.tasks.length + 1) ∧
    (newId ≠ item.id) ∧
    ((convertInboxToIdea s id newId now).inbox =
      (convertInboxToTask s id newId now).inbox) ∧
    ((convertInboxToIdea s id newId now).ideas = s.ideas ++
      [{ id := newId, text := item.text, category := "general",
         potential := 2, status := "new", createdAt := now }]) := by
  have htask : convertInboxToTask s id newId now =
      { s with
        tasks := s.tasks ++
          [{ id := newId, text := item.text, completed := false,
             priority := "medium", dueDate := none, project := none,
             context := [], createdAt := now, completedAt := none }],
        inbox := s.inbox.filter fun i => ¬ i.id = id } := by
    simp [convertInboxToTask, hfind]
  have hidea : convertInboxToIdea s id newId now =
      { s with
        ideas := s.ideas ++
          [{ id := newId, text := item.text, category := "general",
             potential := 2, status := "new", createdAt := now }],
        inbox := s.inbox.filter fun i => ¬ i.id = id } := by
    simp [convertInboxToIdea, hfind]
  refine ⟨?_, ?_, ?_, ?_, ?_, hfresh, ?_, ?_⟩
  · rw [htask]
    have hsplit := length_filter_not (fun i : InboxItem => i.id = id) s.inbox
    simp only [decide_not]
    omega
  · intro j hj
    rw [htask] at hj
    simp only [List.mem_filter, decide_eq_true_eq] at hj
    exact hj.2
  · intro j hj hne
    rw [htask]
    simp only [List.mem_filter, decide_eq_true_eq]
    exact ⟨hj, hne⟩
  · rw [htask]
  · rw [htask]; simp
  · rw [htask, hidea]
  · rw [hidea]

/-- C2 witness: converting the sample inbox record shrinks the inbox by
one and grows the tasks by one. -/
theorem convertInbox_spec_witness :
    ((convertInboxToTask sampleStore "a1" "n1" "t1").inbox.length + 1 =
      sampleStore.inbox.length) ∧
    ((convertInboxToTask sampleStore "a1" "n1" "t1").tasks =
      sampleStore.tasks ++
      [{ id := "n1", text := sampleItem.text, completed := false,
         priority := "medium", dueDate := none, project := none,
         context := [], createdAt := "t1", completedAt := none }]) ∧
    ((convertInboxToIdea sampleStore "a1" "n1" "t1").ideas =
      sampleStore.ideas ++
      [{ id := "n1", text := sampleItem.text, category := "general",
         potential := 2, status := "new", createdAt := "t1" }]) :=
  ⟨(convertInbox_spec sampleStore "a1" "n1" "t1" sampleItem (by decide)
      (by decide) (by decide)).1,
   (convertInbox_spec sampleStore "a1" "n1" "t1" sampleItem (by decide)
      (by decide) (by decide)).2.2.2.1,
   (convertInbox_spec sampleStore "a1" "n1" "t1" sampleItem (by decide)
      (by decide) (by decide)).2.2.2.2.2.2.2⟩

/-- The toggled record keeps the invariant on its own, and the others
are untouched: invariant preservation for `toggleTaskList`. -/
theorem toggleTaskList_invariant (id now : String) (l : List Task)
    (h : ∀ t ∈ l, taskInvariant t) :
    ∀ t ∈ toggleTaskList id now l, taskInvariant t := by
  induction l with
  | nil => intro t ht; simp [toggleTaskList] at ht
  | cons x xs ih =>
    intro t ht
    by_cases hx : x.id = id
    · rw [toggleTaskList, if_pos hx] at ht
      rcases List.mem_cons.mp ht with h1 | h2
      · subst h1
        cases hc : x.completed <;>
          simp [taskInvariant, completedAtSet, hc]
      · exact h t (List.mem_cons_of_mem x h2)
    · rw [toggleTaskList, if_neg hx] at ht
      rcases List.mem_cons.mp ht with h1 | h2
      · exact h t (by simp [h1])
      · exact ih (fun u hu => h u (List.mem_cons_of_mem x hu)) t h2

/-- When `find?` hits, `toggleTaskList` rewrites exactly the first
record with the id and keeps everything else in place. -/
theorem toggleTaskList_split (id now : String) (l : List Task)
    (t0 : Task) (hfind : (l.find? fun t => t.id = id) = some t0) :
    ∃ l1 t l2, l = l1 ++ t :: l2 ∧ t.id = id ∧
      toggleTaskList id now l = l1 ++
        ({ t with completed := !t.completed,
                  completedAt := if !t.completed then some (some now)
                                 else some none } : Task) :: l2 := by
  induction l with
  | nil => simp at hfind
  | cons x xs ih =>
    by_cases hx : x.id = id
    · exact ⟨[], x, xs, rfl, hx, by simp [toggleTaskList, hx]⟩
    · have hfind' : (xs.find? fun t => t.id = id) = some t0 := by
        rw [List.find?_cons_of_neg] at hfind
        · exact hfind
        · simp [hx]
      obtain ⟨l1, t, l2, hl, hid, htog⟩ := ih hfind'
      exact ⟨x :: l1, t, l2, by simp [hl], hid,
        by simp [toggleTaskList, hx, htog]⟩

/-- C8: every task operation maintains "completedAt set iff completed":
the three creation paths (quick add, modal add, conversion from inbox)
only append tasks with completed=false and completedAt absent, and
toggleTask rewrites exactly the flipped record, storing the current
timestamp when it flips to completed and null when it flips back. -/
theorem task_completedAt_invariant (s : Store)
    (id input now newId : String) (answer : Option String)
    (hinv : ∀ t ∈ s.tasks, taskInvariant t) :
    (∀ t ∈ (addQuickTask s input newId now).tasks, taskInvariant t) ∧
    (∀ t ∈ (addQuickTask s input newId now).tasks,
      t ∈ s.tasks ∨ (t.completed = false ∧ t.completedAt = none)) ∧
    (∀ t ∈ (showAddTaskModal s answer newId now).tasks, taskInvariant t) ∧
    (∀ t ∈ (showAddTaskModal s answer newId now).tasks,
      t ∈ s.tasks ∨ (t.completed = false ∧ t.completedAt = none)) ∧
    (∀ t ∈ (convertInboxToTask s id newId now).tasks, taskInvariant t) ∧
    (∀ t ∈ (convertInboxToTask s id newId now).tasks,
      t ∈ s.tasks ∨ (t.completed = false ∧ t.completedAt = none)) ∧
    (∀ t ∈ (toggleTask s id now).tasks, taskInvariant t) ∧
    ((toggleTask s id now).tasks = s.tasks ∨
      ∃ l1 t l2, s.tasks = l1 ++ t :: l2 ∧ t.id = id ∧
        ∃ u, (toggleTask s id now).tasks = l1 ++ u :: l2 ∧
          u.completed = !t.completed ∧
          u.completedAt = (if u.completed then some (some now)
                           else some none)) := by
  have hnewInv : taskInvariant
      { id := newId, text := input.trim, completed := false,
        priority := "medium", dueDate := none, project := none,
        context := [], createdAt := now, completedAt := none } := by
    simp [taskInvariant, completedAtSet]
  have hquick : ∀ t ∈ (addQuickTask s input newId now).tasks,
      t ∈ s.tasks ∨ (t.completed = false ∧ t.completedAt = none) := by
    intro t ht
    by_cases he : input.trim = ""
    · left; simpa [addQuickTask, he] using ht
    · rw [addQuickTask] at ht
      simp only [he, if_false, if_neg he] at ht
      rcases List.mem_append.mp ht with h1 | h2
      · exact Or.inl h1
      · right; simp at h2; subst h2; exact ⟨rfl, rfl⟩
  have hmodal : ∀ t ∈ (showAddTaskModal s answer newId now).tasks,
      t ∈ s.tasks ∨ (t.completed = false ∧ t.completedAt = none) := by
    intro t ht
    match answer with
    | none => exact Or.inl ht
    | some txt =>
      by_cases he : txt.trim = ""
      · left; simpa [showAddTaskModal, he] using ht
      · rw [showAddTaskModal] at ht
        simp only [he, if_false, if_neg he] at ht
        rcases List.mem_append.mp ht with h1 | h2
        · exact Or.inl h1
        · right; simp at h2; subst h2; exact ⟨rfl, rfl⟩
  have hconv : ∀ t ∈ (convertInboxToTask s id newId now).tasks,
      t ∈ s.tasks ∨ (t.completed = false ∧ t.completedAt = none) := by
    intro t ht
    match hf : s.inbox.find? fun i => i.id = id with
    | none => rw [convertInboxToTask, hf] at ht; exact Or.inl ht
    | some item =>
      rw [convertInboxToTask, hf] at ht
      rcases List.mem_append.mp ht with h1 | h2
      · exact Or.inl h1
      · right; simp at h2; subst h2; exact ⟨rfl, rfl⟩
  have hofnew : ∀ t : Task,
      t.completed = false ∧ t.completedAt = none → taskInvariant t := by
    intro t ⟨h1, h2⟩
    simp [taskInvariant, completedAtSet, h1, h2]
  refine ⟨?_, hquick, ?_, hmodal, ?_, hconv, ?_, ?_⟩
  · intro t ht
    rcases hquick t ht with h1 | h2
    · exact hinv t h1
    · exact hofnew t h2
  · intro t ht
    rcases hmodal t ht with h1 | h2
    · exact hinv t h1
    · exact hofnew t h2
  · intro t ht
    rcases hconv t ht with h1 | h2
    · exact hinv t h1
    · exact hofnew t h2
  · intro t ht
    match hf : s.tasks.find? fun u => u.id = id with
    | none => rw [toggleTask, hf] at ht; exact hinv t ht
    | some t0 =>
      rw [toggleTask, hf] at ht
      exact toggleTaskList_invariant id now s.tasks hinv t ht
  · match hf : s.tasks.find? fun u => u.id = id with
    | none => left; rw [toggleTask, hf]
    | some t0 =>
      right
      obtain ⟨l1, t, l2, hl, hid, htog⟩ :=
        toggleTaskList_split id now s.tasks t0 hf
      refine ⟨l1, t, l2, hl, hid,
        { t with completed := !t.completed,
                 completedAt := if !t.completed then some (some now)
                                else some none }, ?_, rfl, rfl⟩
      rw [toggleTask, hf, htog]

/-- C8 witness: toggling the sample task flips it to completed with the
timestamp stored in completedAt, and the toggled record satisfies the
invariant. -/
theorem task_completedAt_invariant_witness :
    taskInvariant
      { id := "t9", text := "write report", completed := true,
        priority := "medium", dueDate := none, project := none,
        context := [], createdAt := "2024-01-02T00:00:00.000Z",
        completedAt := some (some "t2") } :=
  (task_completedAt_invariant sampleStore "t9" "buy milk" "t2" "n1" none
    (by decide)).2.2.2.2.2.2.1
    { id := "t9", text := "write report", completed := true,
      priority := "medium", dueDate := none, project := none,
      context := [], createdAt := "2024-01-02T00:00:00.000Z",
      completedAt := some (some "t2") }
    (by decide)

/-- When `find?` hits, `classifyInboxList` rewrites exactly the first
record carrying the id (all earlier records have different ids) and
keeps every other record in place. -/
theorem classifyInboxList_split (id : String) (l : List InboxItem)
    (i0 : InboxItem) (hfind : (l.find? fun i => i.id = id) = some i0) :
    ∃ l1 i l2, l = l1 ++ i :: l2 ∧ i.id = id ∧ (∀ j ∈ l1, j.id ≠ id) ∧
      classifyInboxList id l = l1 ++ classifyStep i :: l2 := by
  induction l with
  | nil => simp at hfind
  | cons x xs ih =>
    by_cases hx : x.id = id
    · exact ⟨[], x, xs, rfl, hx, by simp, by simp [classifyInboxList, hx]⟩
    · have hfind' : (xs.find? fun i => i.id = id) = some i0 := by
        rw [List.find?_cons_of_neg] at hfind
        · exact hfind
        · simp [hx]
      obtain ⟨l1, i, l2, hl, hid, hl1, hcl⟩ := ih hfind'
      refine ⟨x :: l1, i, l2, by simp [hl], hid, ?_,
        by simp [classifyInboxList, hx, hcl]⟩
      intro j hj
      rcases List.mem_cons.mp hj with h1 | h2
      · rw [h1]; exact hx
      · exact hl1 j h2

/-- C10: `classifyInboxItem` only ever rewrites the `type` and
`aiSummary` of the first inbox record with the requested id — the
record's id, text, createdAt and status survive, every other inbox
record is untouched, the tasks, projects, ideas, contacts and settings
are untouched, and when no record has the id the whole store is
returned unchanged. -/
theorem classifyInboxItem_frame (s : Store) (id : String) :
    ((classifyInboxItem s id).projects = s.projects ∧
     (classifyInboxItem s id).tasks = s.tasks ∧
     (classifyInboxItem s id).ideas = s.ideas ∧
     (classifyInboxItem s id).contacts = s.contacts ∧
     (classifyInboxItem s id).settings = s.settings) ∧
    (∀ i : InboxItem, (classifyStep i).id = i.id ∧
      (classifyStep i).text = i.text ∧
      (classifyStep i).createdAt = i.createdAt ∧
      (classifyStep i).status = i.status) ∧
    ((∀ i ∈ s.inbox, i.id ≠ id) → classifyInboxItem s id = s) ∧
    ((classifyInboxItem s id).inbox = s.inbox ∨
      ∃ l1 i l2, s.inbox = l1 ++ i :: l2 ∧ i.id = id ∧
        (∀ j ∈ l1, j.id ≠ id) ∧
        (classifyInboxItem s id).inbox = l1 ++ classifyStep i :: l2) := by
  refine ⟨?_, fun i => ⟨rfl, rfl, rfl, rfl⟩, ?_, ?_⟩
  · match hf : s.inbox.find? fun i => i.id = id with
    | none => rw [classifyInboxItem, hf]; exact ⟨rfl, rfl, rfl, rfl, rfl⟩
    | some i0 => rw [classifyInboxItem, hf]; exact ⟨rfl, rfl, rfl, rfl, rfl⟩
  · intro h
    have hfind : (s.inbox.find? fun i => i.id = id) = none := by
      rw [List.find?_eq_none]
      intro i hi
      simpa using h i hi
    rw [classifyInboxItem, hfind]
  · match hf : s.inbox.find? fun i => i.id = id with
    | none => left; rw [classifyInboxItem, hf]
    | some i0 =>
      right
      obtain ⟨l1, i, l2, hl, hid, hl1, hcl⟩ :=
        classifyInboxList_split id s.inbox i0 hf
      exact ⟨l1, i, l2, hl, hid, hl1, by rw [classifyInboxItem, hf, hcl]⟩

/-- C10 witness: classifying an id absent from the sample store leaves
the store unchanged, and classifying the sample record leaves the task
collection (and the record's text) unchanged. -/
theorem classifyInboxItem_frame_witness :
    classifyInboxItem sampleStore "zz" = sampleStore ∧
    (classifyInboxItem sampleStore "a1").tasks = sampleStore.tasks ∧
    (classifyStep sampleItem).text = sampleItem.text :=
  ⟨(classifyInboxItem_frame sampleStore "zz").2.2.1 (by decide),
   (classifyInboxItem_frame sampleStore "a1").1.2.1,
   ((classifyInboxItem_frame sampleStore "a1").2.1 sampleItem).2.1⟩

end SecondBrain
